import Mathlib

/-!
Verification of the merlin2 maintenance scripts.

The repository consists of small Python scripts that textually patch a
TypeScript data file (`add_universal_questions.py`,
`backup_20251122_083649/add_grid_capacity.py`), perform a one-time
line-based refactor (`op1b_extract.py`), and provision billing products
(`scripts/create_stripe_products.py`).

Text is modelled as `List Char`.  The specific regular expressions used by
the scripts have the shape `(START [\s\S]*? ) (END)` with literal tokens
START and END, so Python's `re.sub` with a replacement function is embedded
as a left-to-right scan: at the first position where START is a literal
prefix and END occurs afterwards, the shortest such match is taken (lazy
quantifier), the replacement function is applied to the two groups, and
scanning resumes after the match.  Apostrophes and braces occurring in the
scripts' string literals are written with `\x27`, `\x7b` and `\x7d`
escapes.
-/

namespace Merlin

set_option maxRecDepth 2000000

/-! ## Text primitives -/

/-- First index of `hay` at which `needle` starts as a literal prefix,
scanning left to right (the semantics of Python's `str.find` and of the
regex engine locating a literal token). -/
def findSub (needle : List Char) : List Char → Option Nat
  | [] => if needle.isPrefixOf ([] : List Char) then some 0 else none
  | c :: rest =>
    if needle.isPrefixOf (c :: rest) then some 0
    else (findSub needle rest).map (· + 1)

/-- Python's substring test `needle in hay`. -/
def containsTok (needle hay : List Char) : Bool :=
  (findSub needle hay).isSome

/-- Number of positions of `hay` at which `needle` occurs (a list whose
entries are pairwise distinct contains every entry at most once, so a
count of 2 for an `id: '…'` needle exhibits a duplicated id). -/
def countSub (needle : List Char) : List Char → Nat
  | [] => if needle.isPrefixOf ([] : List Char) then 1 else 0
  | c :: rest =>
    (if needle.isPrefixOf (c :: rest) then 1 else 0) + countSub needle rest

/-- The needles occur in `hay` in the given order, each strictly after the
end of the previous one. -/
def seqOccurs : List Char → List (List Char) → Bool
  | _, [] => true
  | s, n :: ns =>
    match findSub n s with
    | some k => seqOccurs (s.drop (k + n.length)) ns
    | none => false

/-- Characters stripped by Python's `str.rstrip()` (the inputs handled by
the scripts are ASCII, where these are exactly the whitespace characters). -/
def isPySpace (c : Char) : Bool :=
  c = ' ' || c = '\t' || c = '\n' || c = '\r' || c = '\x0b' || c = '\x0c'

/-- Python's `str.rstrip()`: remove trailing whitespace. -/
def rstrip (l : List Char) : List Char :=
  (l.reverse.dropWhile isPySpace).reverse

/-- One pass of `re.sub(pattern, f, s)` for a pattern of the literal shape
`(START [\s\S]*?)(END)`: find the leftmost position where START matches and
END occurs later, take the lazily shortest match there, replace it by
`f group1 group2` (where `group1 = START ++ middle` and `group2 = END`), and
continue after the match.  `fuel` bounds the recursion; the wrapper passes
the length of the string, which suffices because every step consumes at
least one character. -/
def reSubGo (sT eT : List Char) (f : List Char → List Char → List Char) :
    Nat → List Char → List Char
  | 0, s => s
  | _ + 1, [] => []
  | fuel + 1, c :: rest =>
    if sT.isPrefixOf (c :: rest) then
      match findSub eT ((c :: rest).drop sT.length) with
      | some k =>
        f (sT ++ ((c :: rest).drop sT.length).take k) eT
          ++ reSubGo sT eT f fuel ((c :: rest).drop (sT.length + k + eT.length))
      | none => c :: reSubGo sT eT f fuel rest
    else c :: reSubGo sT eT f fuel rest

/-- Wrapper running `reSubGo` with enough fuel: the embedding of `re.sub`
for the patterns used by the scripts. -/
def reSub (sT eT : List Char) (f : List Char → List Char → List Char)
    (s : List Char) : List Char :=
  reSubGo sT eT f s.length s

/-- Whether the pattern `(START [\s\S]*?)(END)` matches anywhere in the
string (same scan as `reSubGo`). -/
def hasMatchGo (sT eT : List Char) : Nat → List Char → Bool
  | 0, _ => false
  | _ + 1, [] => false
  | fuel + 1, c :: rest =>
    (sT.isPrefixOf (c :: rest)
        && (findSub eT ((c :: rest).drop sT.length)).isSome)
      || hasMatchGo sT eT fuel rest

/-- Every match of the pattern in the string has a first group containing
the marker token (same scan as `reSubGo`). -/
def allMarkedGo (sT eT mk : List Char) : Nat → List Char → Bool
  | 0, _ => true
  | _ + 1, [] => true
  | fuel + 1, c :: rest =>
    if sT.isPrefixOf (c :: rest) then
      match findSub eT ((c :: rest).drop sT.length) with
      | some k =>
        containsTok mk (sT ++ ((c :: rest).drop sT.length).take k)
          && allMarkedGo sT eT mk fuel
              ((c :: rest).drop (sT.length + k + eT.length))
      | none => allMarkedGo sT eT mk fuel rest
    else allMarkedGo sT eT mk fuel rest

/-! ## The Template Patcher, from `add_universal_questions.py` -/

/-- The block of questions injected by `add_universal_questions.py`
(its `UNIVERSAL_QUESTIONS` triple-quoted constant, verbatim). -/
def UNIVERSAL_QUESTIONS : String :=
  "      \x7b\n        id: \x27facilitySize\x27,\n        question: \x27Facility size (sq ft)\x27,\n        type: \x27number\x27,\n        default: 10000,\n        unit: \x27sq ft\x27,\n        impactType: \x27factor\x27,\n        helpText: \x27Total building/facility square footage\x27,\n        required: false\n      \x7d,\n      \x7b\n        id: \x27operatingHours\x27,\n        question: \x27Daily operating hours\x27,\n        type: \x27number\x27,\n        default: 12,\n        unit: \x27hours\x27,\n        impactType: \x27factor\x27,\n        helpText: \x27Hours per day the facility operates\x27,\n        required: true\n      \x7d,\n      \x7b\n        id: \x27peakLoad\x27,\n        question: \x27Peak power demand (if known)\x27,\n        type: \x27number\x27,\n        default: 0,\n        unit: \x27MW\x27,\n        impactType: \x27none\x27,\n        helpText: \x27Optional: Actual peak load from utility bill (leave 0 for auto-calculation)\x27,\n        required: false\n      \x7d,\n      \x7b\n        id: \x27gridConnection\x27,\n        question: \x27Grid connection quality\x27,\n        type: \x27select\x27,\n        default: \x27reliable\x27,\n        options: [\n          \x7b value: \x27reliable\x27, label: \x27Reliable Grid - Stable power, rare outages\x27 \x7d,\n          \x7b value: \x27unreliable\x27, label: \x27Unreliable Grid - Frequent outages\x27 \x7d,\n          \x7b value: \x27limited\x27, label: \x27Limited Capacity - Grid undersized for facility\x27 \x7d,\n          \x7b value: \x27off_grid\x27, label: \x27Off-Grid - No grid connection\x27 \x7d,\n          \x7b value: \x27microgrid\x27, label: \x27Microgrid - Independent power system\x27 \x7d\n        ],\n        impactType: \x27factor\x27,\n        helpText: \x27Grid quality affects backup requirements and generation needs\x27,\n        required: true\n      \x7d"

/-- The constant `UNIVERSAL_QUESTIONS` as a character list. -/
def universalQuestions : List Char := UNIVERSAL_QUESTIONS.toList

/-- Start token of the patcher's regex group 1:
`(    customQuestions: \[`. -/
def cqStart : List Char := "    customQuestions: [".toList

/-- The patcher's regex group 2, the closing delimiter `    \]\n  },`. -/
def cqEnd : List Char := "    ]\n  \x7d,".toList

/-- The marker substring whose presence makes the patcher skip a block. -/
def gridMarker : List Char := "gridConnection".toList

/-- Add a trailing comma unless the block already ends with one
(the `if not questions_block.endswith(','):` step of the script). -/
def ensureTrailingComma (qb : List Char) : List Char :=
  if qb.getLast? = some ',' then qb else qb ++ [',']

/-- The replacement function of `add_universal_questions.py`
(`add_questions_if_missing`): skip if the question block already contains
the marker; otherwise right-strip it, add a trailing comma if missing, and
append the universal questions followed by the closing delimiter. -/
def add_questions_if_missing (g1 g2 : List Char) : List Char :=
  if containsTok gridMarker g1 then g1 ++ g2
  else ensureTrailingComma (rstrip g1) ++ '\n' :: (universalQuestions ++ '\n' :: g2)

/-- The full transformation applied by `add_universal_questions.py` to the
file contents: `re.sub(pattern, add_questions_if_missing, content)`. -/
def patchText (s : List Char) : List Char :=
  reSub cqStart cqEnd add_questions_if_missing s

/-! ## Needles and concrete inputs for the Template Patcher claims -/

/-- Needle `id: 'facilitySize'`. -/
def facilitySizeNeedle : List Char := "id: \x27facilitySize\x27".toList

/-- Needle `id: 'operatingHours'`. -/
def operatingHoursNeedle : List Char := "id: \x27operatingHours\x27".toList

/-- Needle `id: 'peakLoad'`. -/
def peakLoadNeedle : List Char := "id: \x27peakLoad\x27".toList

/-- Needle `id: 'gridConnection'`. -/
def gridConnectionNeedle : List Char := "id: \x27gridConnection\x27".toList

/-- The ids of the four injected questions, in their order of injection. -/
def universalIdNeedles : List (List Char) :=
  [facilitySizeNeedle, operatingHoursNeedle, peakLoadNeedle, gridConnectionNeedle]

/-- Needle `id: '`, beginning every question id field. -/
def idFieldTok : List Char := "id: \x27".toList

/-- Input on which the Template Patcher is not idempotent: the matched
question block right-strips to text ending in `    ]\n  }` without a comma,
so the patch itself manufactures a new occurrence of the closing delimiter
`    ]\n  },` earlier in the text, which the second run matches afresh. -/
def c1CexInput : List Char :=
  "    customQuestions: [\n    ]\n  \x7d\n    ]\n  \x7d,".toList

/-- Question block used as the skip-branch witness: it already contains the
marker id `gridConnection`. -/
def markedBlock : List Char :=
  "    customQuestions: [\n      \x7b id: \x27gridConnection\x27, required: true \x7d\n".toList

/-- Input whose single question block already carries the marker, so the
patcher leaves the whole text unchanged. -/
def markedInput : List Char :=
  ("  \x7b\n" ++ markedBlock.asString ++ "    ]\n  \x7d,\n").toList

/-- Text whose question block contains `facilitySize` but not the marker
`gridConnection`: the patcher appends all four universal questions anyway,
duplicating the id `facilitySize`. -/
def c2CexInput : List Char :=
  "    customQuestions: [\n      \x7b\n        id: \x27facilitySize\x27,\n        required: false\n      \x7d\n    ]\n  \x7d,".toList

/-- Question block without the marker, used as witness input for the
otherwise branch. -/
def unmarkedBlock : List Char :=
  "    customQuestions: [\n      \x7b\n        id: \x27industrySpecific\x27,\n        required: true\n      \x7d\n".toList

/-- The worked example of the spec: one template whose question list holds
the single question `industrySpecific`. -/
def c6Input : List Char :=
  "  \x7b\n    customQuestions: [\n      \x7b\n        id: \x27industrySpecific\x27,\n        question: \x27Q\x27,\n        required: true\n      \x7d\n    ]\n  \x7d,\n".toList

/-- The original question entry of `c6Input`, up to its closing brace. -/
def c6OriginalEntry : List Char :=
  "  \x7b\n    customQuestions: [\n      \x7b\n        id: \x27industrySpecific\x27,\n        question: \x27Q\x27,\n        required: true\n      \x7d".toList

/-- Malformed input: a question-block opening with no closing delimiter
`    ]\n  },` anywhere, so the boundary pattern cannot match. -/
def c5Malformed : List Char :=
  "    customQuestions: [\n      \x7b id: \x27x\x27 \x7d\n  // unterminated".toList

/-- Prefix of the C9 block: the marker character sequence occurs only
inside a helpText string value. -/
def c9Pre : List Char :=
  "    customQuestions: [\n      \x7b id: \x27foo\x27, helpText: \x27affected by ".toList

/-- Suffix of the C9 block after the marker occurrence. -/
def c9Post : List Char := " quality\x27 \x7d\n".toList

/-- Question block containing `gridConnection` only inside a helpText
string, not as any question's id. -/
def c9Block : List Char := c9Pre ++ (gridMarker ++ c9Post)

/-! ## The narrower splice variant, from `backup_20251122_083649/add_grid_capacity.py` -/

/-- The `GRID_CAPACITY_QUESTION` constant of `add_grid_capacity.py`,
verbatim. -/
def GRID_CAPACITY_QUESTION : String :=
  "      \x7d,\n      \x7b\n        id: \x27gridCapacity\x27,\n        question: \x27Grid connection capacity (if limited)\x27,\n        type: \x27number\x27,\n        default: 0,\n        unit: \x27MW\x27,\n        impactType: \x27factor\x27,\n        helpText: \x27If limited grid: Enter max capacity from utility. If 0, we assume unlimited grid.\x27,\n        required: false"

/-- Start token of the splice pattern `(id: 'gridConnection',[\s\S]*?…)`. -/
def gcStart : List Char := "id: \x27gridConnection\x27,".toList

/-- End token `required: true\n      }` of the splice pattern. -/
def gcEnd : List Char := "required: true\n      \x7d".toList

/-- The replacement function `add_capacity_question`: return the whole
match (the pattern's single group) with the gridCapacity fields spliced in
directly after it. -/
def add_capacity_question (g1 g2 : List Char) : List Char :=
  (g1 ++ g2) ++ GRID_CAPACITY_QUESTION.toList

/-- The full transformation applied by `add_grid_capacity.py`. -/
def gcPatch (s : List Char) : List Char :=
  reSub gcStart gcEnd add_capacity_question s

/-- A gridConnection question block as matched by the splice pattern. -/
def gcBase : List Char :=
  "      \x7b\n        id: \x27gridConnection\x27,\n        question: \x27Grid connection quality\x27,\n        required: true\n      \x7d\n    ]".toList

/-- Needle `id: 'gridCapacity'`. -/
def gridCapacityNeedle : List Char := "id: \x27gridCapacity\x27".toList

/-! ## Billing provisioning, from `scripts/create_stripe_products.py` -/

/-- A request issued to the payment provider's API. -/
inductive StripeRequest where
  | product (name desc tier : String)
  | price (productId : String) (unitAmount : Nat) (interval tier billing : String)
deriving DecidableEq

/-- One entry of the script's `plans` list. -/
structure StripePlan where
  name : String
  tier : String
  monthly : Nat
  annual : Nat
  desc : String

/-- The script's `plans` list, verbatim. -/
def plans : List StripePlan :=
  [⟨"Builder", "starter", 2900, 29000,
      "Professional BESS quotes and project sizing"⟩,
    ⟨"Pro", "pro", 4900, 49000,
      "Advanced analytics and professional deliverables"⟩,
    ⟨"Advanced", "advanced", 9900, 99000,
      "Full platform with bank-ready models and market intelligence"⟩]

/-- The Product creation request for a plan. -/
def productRequest (p : StripePlan) : StripeRequest :=
  .product ("Merlin " ++ p.name) p.desc p.tier

/-- The requests the loop body issues for one plan under a given oracle:
product always; monthly price only if the product response had an id;
annual price only if the monthly response also had an id. -/
def planRequests (oracle : StripeRequest → Option String) (p : StripePlan) :
    List StripeRequest :=
  let pr := productRequest p
  match oracle pr with
  | none => [pr]
  | some pid =>
    let mr := StripeRequest.price pid p.monthly "month" p.tier "monthly"
    match oracle mr with
    | none => [pr, mr]
    | some _ => [pr, mr, StripeRequest.price pid p.annual "year" p.tier "annual"]

/-- All requests issued by the script, in order. -/
def scriptRequests (oracle : StripeRequest → Option String) : List StripeRequest :=
  (plans.map (planRequests oracle)).flatten

/-- Number of requests in a trace satisfying a predicate. -/
def countReq (f : StripeRequest → Bool) : List StripeRequest → Nat
  | [] => 0
  | r :: rs => (if f r then 1 else 0) + countReq f rs

/-- Product creation request for the given tier? -/
def isProductFor (t : String) : StripeRequest → Bool
  | .product _ _ tier => tier == t
  | _ => false

/-- Price creation request for the given tier and billing interval? -/
def isPriceFor (t billing : String) : StripeRequest → Bool
  | .price _ _ _ tier b => tier == t && b == billing
  | _ => false

/-! ## The Structural Line Editor, from `op1b_extract.py` -/

/-- The anchor substring located by step 1 of the script. -/
def anchorNeedle : List Char := "import \x7b useWizardLocation \x7d".toList

/-- The import line inserted after the anchor. -/
def importInsert : List Char :=
  "import \x7b useWizardStep3 \x7d from \"./useWizardStep3\";\n".toList

/-- Step 1 of the script: insert `importInsert` directly after the first
line containing the anchor substring (the loop breaks after the first
match; if no line matches, nothing is inserted). -/
def insertAfterAnchor : List (List Char) → List (List Char)
  | [] => []
  | l :: rest =>
    if containsTok anchorNeedle l then l :: importInsert :: rest
    else l :: insertAfterAnchor rest

/-- The 180-line segment removed by step 2, `del lines[2522:2702]`
(0-indexed), taken from the post-insertion list. -/
def deletion1Removed (F : List (List Char)) : List (List Char) :=
  ((insertAfterAnchor F).drop 2522).take 180

/-- The line list after steps 1 and 2. -/
def afterStep2 (F : List (List Char)) : List (List Char) :=
  (insertAfterAnchor F).take 2522 ++ (insertAfterAnchor F).drop 2702

/-- The 324-line segment removed by step 3, `del lines[3193:3517]`
(0-indexed), taken from the list left by step 2. -/
def deletion2Removed (F : List (List Char)) : List (List Char) :=
  ((afterStep2 F).drop 3193).take 324

/-- A numbered line used to build a synthetic target file. -/
def numberedLine (n : Nat) : List Char := 'L' :: Nat.toDigits 10 n

/-- The anchor line of the synthetic target file. -/
def anchorLine : List Char :=
  "import \x7b useWizardLocation \x7d from \"./useWizardLocation\";\n".toList

/-- A synthetic 3800-line target file whose line 30 (index 29) is the
anchor import line, as in the file the script was written for. -/
def op1bTestFile : List (List Char) :=
  (List.range 3800).map fun n => if n == 29 then anchorLine else numberedLine n

/-- Lines 0 through 28 of the synthetic file. -/
def op1bHead : List (List Char) := (List.range 29).map numberedLine

/-- Lines 30 onwards of the synthetic file. -/
def op1bTail : List (List Char) := (List.range 3770).map fun k => numberedLine (k + 30)

/-! ## Lemmas about the text primitives -/

/-! ## Lemmas about the text primitives -/
theorem prefixOf_eq_append : ∀ {p l : List Char}, p.isPrefixOf l = true →
    l = p ++ l.drop p.length := by
  intro p
  induction p with
  | nil => intro l _; simp
  | cons a as ih =>
    intro l h
    cases l with
    | nil => simp at h
    | cons b bs =>
      rw [List.isPrefixOf_cons₂, Bool.and_eq_true] at h
      obtain ⟨hab, h2⟩ := h
      have hab' : a = b := eq_of_beq hab
      subst hab'
      simp only [List.length_cons, List.drop_succ_cons, List.cons_append]
      exact congrArg _ (ih h2)

theorem prefixOf_append_self (p t : List Char) : p.isPrefixOf (p ++ t) = true := by
  induction p with
  | nil => simp
  | cons a as ih => simp [List.isPrefixOf_cons₂, ih]

theorem prefixOf_extend {p l : List Char} (t : List Char)
    (h : p.isPrefixOf l = true) : p.isPrefixOf (l ++ t) = true := by
  rw [prefixOf_eq_append h, List.append_assoc]
  exact prefixOf_append_self p _

theorem prefixOf_append_cases : ∀ {p l t : List Char},
    p.isPrefixOf (l ++ t) = true →
    p.isPrefixOf l = true ∨
      (l.length < p.length ∧ p = l ++ t.take (p.length - l.length)) := by
  intro p l
  induction l generalizing p with
  | nil =>
    intro t h
    cases p with
    | nil => left; simp
    | cons a as =>
      have h1 := prefixOf_eq_append h
      simp only [List.nil_append] at h1
      right
      refine ⟨by simp, ?_⟩
      simp only [List.nil_append, List.length_nil, Nat.sub_zero]
      conv_rhs => rw [h1]
      rw [List.take_left]
  | cons c cs ih =>
    intro t h
    cases p with
    | nil => left; simp
    | cons a as =>
      rw [List.cons_append, List.isPrefixOf_cons₂, Bool.and_eq_true] at h
      obtain ⟨hac, h2⟩ := h
      have hac' : a = c := eq_of_beq hac
      subst hac'
      rcases ih h2 with h3 | ⟨h3, h4⟩
      · left; simp [List.isPrefixOf_cons₂, h3]
      · right
        refine ⟨by simpa using Nat.succ_lt_succ h3, ?_⟩
        simp only [List.length_cons, Nat.succ_sub_succ]
        rw [List.cons_append]
        exact congrArg _ h4

theorem isPrefixOf_self (p : List Char) : p.isPrefixOf p = true := by
  have := prefixOf_append_self p []
  rwa [List.append_nil] at this

theorem findSub_some_prefixOf : ∀ {l : List Char} {n : List Char} {k : Nat},
    findSub n l = some k → n.isPrefixOf (l.drop k) = true := by
  intro l
  induction l with
  | nil =>
    intro n k h
    rw [findSub] at h
    split at h
    next hpre => cases h; simpa using hpre
    next => cases h
  | cons c rest ih =>
    intro n k h
    rw [findSub] at h
    split at h
    next hpre => cases h; simpa using hpre
    next =>
      rw [Option.map_eq_some'] at h
      obtain ⟨k', hk', rfl⟩ := h
      simpa [List.drop_succ_cons] using ih hk'

theorem findSub_decomp {l n : List Char} {k : Nat} (h : findSub n l = some k) :
    l = l.take k ++ n ++ l.drop (k + n.length) := by
  have h1 := findSub_some_prefixOf h
  have h2 := prefixOf_eq_append h1
  conv_lhs => rw [← List.take_append_drop k l, h2]
  simp [List.append_assoc, Nat.add_comm]

theorem findSub_isSome_of_prefixOf {n hay : List Char}
    (h : n.isPrefixOf hay = true) : (findSub n hay).isSome = true := by
  cases hay <;> simp [findSub, h]

theorem findSub_isSome_extend {n : List Char} (c : Char) {rest : List Char}
    (h : (findSub n rest).isSome = true) :
    (findSub n (c :: rest)).isSome = true := by
  rw [findSub]
  split
  · simp
  · simpa using h

theorem containsTok_of_parts (pre mk post : List Char) :
    containsTok mk (pre ++ (mk ++ post)) = true := by
  induction pre with
  | nil =>
    simpa [containsTok] using
      findSub_isSome_of_prefixOf (prefixOf_append_self mk post)
  | cons c pre' ih =>
    simpa [containsTok] using findSub_isSome_extend c ih

theorem getLast?_some_mem : ∀ {l : List Char} {c : Char},
    l.getLast? = some c → c ∈ l := by
  intro l
  induction l with
  | nil => intro c h; cases h
  | cons a as ih =>
    intro c h
    cases as with
    | nil => simp [List.getLast?] at h; simp [h]
    | cons b bs =>
      rw [List.getLast?_cons_cons] at h
      exact List.mem_cons_of_mem _ (ih h)

theorem countSub_nil {n : List Char} (h : n ≠ []) : countSub n [] = 0 := by
  rw [countSub]
  cases n with
  | nil => simp at h
  | cons a as => simp

theorem countSub_eq_zero_of_getLast_notMem {q : List Char} {c : Char}
    (hq : q.getLast? = some c) : ∀ {B : List Char}, c ∉ B → countSub q B = 0 := by
  have hqne : q ≠ [] := by intro h; subst h; cases hq
  intro B
  induction B with
  | nil => intro _; exact countSub_nil hqne
  | cons b B' ih =>
    intro hB
    rw [countSub]
    have hnp : ¬ q.isPrefixOf (b :: B') = true := by
      intro hp
      have hmem : c ∈ b :: B' := by
        have := prefixOf_eq_append hp
        rw [this]
        exact List.mem_append_left _ (getLast?_some_mem hq)
      exact hB hmem
    rw [if_neg hnp, ih (fun hm => hB (List.mem_cons_of_mem _ hm))]

theorem countSub_append_of_getLast_notMem {q : List Char} {c : Char}
    (hq : q.getLast? = some c) {B : List Char} (hB : c ∉ B) :
    ∀ A : List Char, countSub q (A ++ B) = countSub q A := by
  intro A
  induction A with
  | nil =>
    rw [List.nil_append, countSub_eq_zero_of_getLast_notMem hq hB,
      countSub_nil (by intro h; subst h; cases hq)]
  | cons a A' ih =>
    rw [List.cons_append, countSub, countSub]
    have hag : q.isPrefixOf (a :: (A' ++ B)) = q.isPrefixOf (a :: A') := by
      cases hp : q.isPrefixOf (a :: A') with
      | true =>
        have := prefixOf_extend B hp
        rwa [List.cons_append] at this
      | false =>
        cases hp2 : q.isPrefixOf (a :: (A' ++ B)) with
        | false => rfl
        | true =>
          exfalso
          rw [show a :: (A' ++ B) = (a :: A') ++ B from rfl] at hp2
          rcases prefixOf_append_cases hp2 with h3 | ⟨h3, h4⟩
          · rw [hp] at h3; cases h3
          · by_cases hBt : B.take (q.length - (a :: A').length) = []
            · rw [hBt, List.append_nil] at h4
              subst h4
              rw [isPrefixOf_self] at hp
              cases hp
            · have hlast : ((a :: A') ++ B.take (q.length - (a :: A').length)).getLast?
                  = (B.take (q.length - (a :: A').length)).getLast? :=
                List.getLast?_append_of_ne_nil _ hBt
              have hc : c ∈ B.take (q.length - (a :: A').length) := by
                apply getLast?_some_mem
                rw [← hlast, ← h4]
                exact hq
              exact hB (List.take_subset _ _ hc)
    rw [hag, ih]

theorem countSub_append_cons_of_notMem {q : List Char} {c0 : Char}
    (hq : q ≠ []) (hc : c0 ∉ q) :
    ∀ A B : List Char, countSub q (A ++ c0 :: B) = countSub q A + countSub q B := by
  intro A B
  induction A with
  | nil =>
    rw [List.nil_append, countSub_nil hq, countSub]
    have hnp : ¬ q.isPrefixOf (c0 :: B) = true := by
      intro hp
      cases q with
      | nil => exact hq rfl
      | cons q0 q' =>
        rw [List.isPrefixOf_cons₂, Bool.and_eq_true] at hp
        have : q0 = c0 := eq_of_beq hp.1
        subst this
        exact hc (List.mem_cons_self _ _)
    rw [if_neg hnp]
  | cons a A' ih =>
    rw [List.cons_append, countSub, countSub]
    have hag : q.isPrefixOf (a :: (A' ++ c0 :: B)) = q.isPrefixOf (a :: A') := by
      cases hp : q.isPrefixOf (a :: A') with
      | true =>
        have := prefixOf_extend (c0 :: B) hp
        rwa [List.cons_append] at this
      | false =>
        cases hp2 : q.isPrefixOf (a :: (A' ++ c0 :: B)) with
        | false => rfl
        | true =>
          exfalso
          rw [show a :: (A' ++ c0 :: B) = (a :: A') ++ c0 :: B from rfl] at hp2
          rcases prefixOf_append_cases hp2 with h3 | ⟨h3, h4⟩
          · rw [hp] at h3; cases h3
          · have hpos : 0 < q.length - (a :: A').length := Nat.sub_pos_of_lt h3
            have : c0 ∈ q := by
              rw [h4]
              refine List.mem_append_right _ ?_
              cases hk : q.length - (a :: A').length with
              | zero => omega
              | succ m => simp [List.take_succ_cons]
            exact hc this
    rw [hag, ih, Nat.add_assoc]

theorem rstrip_decomp (l : List Char) :
    ∃ w, l = rstrip l ++ w ∧ ∀ x ∈ w, isPySpace x = true := by
  refine ⟨(l.reverse.takeWhile isPySpace).reverse, ?_, ?_⟩
  · rw [rstrip, ← List.reverse_append, List.takeWhile_append_dropWhile,
      List.reverse_reverse]
  · intro x hx
    rw [List.mem_reverse] at hx
    exact List.mem_takeWhile_imp hx

theorem countSub_rstrip {q : List Char} {c : Char} (hq : q.getLast? = some c)
    (hc : isPySpace c = false) (l : List Char) :
    countSub q l = countSub q (rstrip l) := by
  obtain ⟨w, hw, hws⟩ := rstrip_decomp l
  conv_lhs => rw [hw]
  refine countSub_append_of_getLast_notMem hq ?_ _
  intro hcw
  rw [hws c hcw] at hc
  cases hc

/-! ## Behaviour of the substitution scan -/
theorem reSubGo_eq_self_of_noMatch (sT eT : List Char)
    (f : List Char → List Char → List Char) :
    ∀ fuel s, hasMatchGo sT eT fuel s = false → reSubGo sT eT f fuel s = s := by
  intro fuel
  induction fuel with
  | zero => intro s _; rfl
  | succ n ih =>
    intro s h
    cases s with
    | nil => rfl
    | cons c rest =>
      rw [hasMatchGo, Bool.or_eq_false_iff, Bool.and_eq_false_iff] at h
      obtain ⟨h1, h2⟩ := h
      cases hpre : sT.isPrefixOf (c :: rest) with
      | false =>
        simp only [reSubGo, hpre, Bool.false_eq_true, if_false]
        rw [ih rest h2]
      | true =>
        rcases h1 with h1 | h1
        · rw [hpre] at h1; cases h1
        · have hnone : findSub eT ((c :: rest).drop sT.length) = none :=
            Option.not_isSome_iff_eq_none.mp (by rw [h1]; simp)
          simp only [reSubGo, hpre, if_true, hnone]
          rw [ih rest h2]

theorem reSubGo_eq_self_of_allMarked (sT eT mk : List Char)
    (f : List Char → List Char → List Char)
    (hf : ∀ g1 g2, containsTok mk g1 = true → f g1 g2 = g1 ++ g2) :
    ∀ fuel s, allMarkedGo sT eT mk fuel s = true → reSubGo sT eT f fuel s = s := by
  intro fuel
  induction fuel with
  | zero => intro s _; rfl
  | succ n ih =>
    intro s h
    cases s with
    | nil => rfl
    | cons c rest =>
      cases hpre : sT.isPrefixOf (c :: rest) with
      | false =>
        rw [allMarkedGo] at h
        simp only [hpre, Bool.false_eq_true, if_false] at h
        simp only [reSubGo, hpre, Bool.false_eq_true, if_false]
        rw [ih rest h]
      | true =>
        rw [allMarkedGo] at h
        simp only [hpre, if_true] at h
        cases hfind : findSub eT ((c :: rest).drop sT.length) with
        | none =>
          simp only [hfind] at h
          simp only [reSubGo, hpre, if_true, hfind]
          rw [ih rest h]
        | some k =>
          simp only [hfind, Bool.and_eq_true] at h
          obtain ⟨hmk, hrec⟩ := h
          simp only [reSubGo, hpre, if_true, hfind]
          rw [hf _ _ hmk, ih _ hrec]
          have hd := prefixOf_eq_append hpre
          have he := findSub_decomp hfind
          conv_rhs => rw [hd]
          conv_rhs => rw [he]
          rw [show sT.length + k + eT.length = sT.length + (k + eT.length) by omega,
            ← List.drop_drop]
          simp [List.append_assoc]

/-! ## Lemmas about the patcher's replacement function -/
theorem add_questions_skip {g1 : List Char} (g2 : List Char)
    (h : containsTok gridMarker g1 = true) :
    add_questions_if_missing g1 g2 = g1 ++ g2 := by
  rw [add_questions_if_missing, if_pos h]

theorem add_questions_countSub {q : List Char} (hq1 : q ≠ [])
    (hq2 : ('\n' : Char) ∉ q) (hq3 : q.getLast? = some '\x27')
    (hUQ : countSub q universalQuestions = 1) (hE : countSub q cqEnd = 0)
    {g1 : List Char} (hm : containsTok gridMarker g1 = false) :
    countSub q (add_questions_if_missing g1 cqEnd) = countSub q g1 + 1 := by
  rw [add_questions_if_missing, if_neg (by simp [hm]),
    countSub_append_cons_of_notMem hq1 hq2,
    countSub_append_cons_of_notMem hq1 hq2, hUQ, hE]
  have hqb : countSub q (ensureTrailingComma (rstrip g1)) = countSub q g1 := by
    rw [ensureTrailingComma]
    split
    · exact (countSub_rstrip hq3 (by decide) g1).symm
    · rw [countSub_append_of_getLast_notMem hq3 (by decide) (rstrip g1)]
      exact (countSub_rstrip hq3 (by decide) g1).symm
  omega

theorem countReq_append (f : StripeRequest → Bool) :
    ∀ l1 l2, countReq f (l1 ++ l2) = countReq f l1 + countReq f l2 := by
  intro l1 l2
  induction l1 with
  | nil => simp [countReq]
  | cons r rs ih => rw [List.cons_append, countReq, countReq, ih, Nat.add_assoc]

theorem countReq_product_planRequests (oracle : StripeRequest → Option String)
    (p : StripePlan) (t : String) :
    countReq (isProductFor t) (planRequests oracle p) =
      if p.tier == t then 1 else 0 := by
  cases h1 : oracle (productRequest p) with
  | none =>
    simp only [planRequests, h1]
    simp [countReq, isProductFor, productRequest]
  | some pid =>
    cases h2 : oracle (StripeRequest.price pid p.monthly "month" p.tier "monthly") with
    | none =>
      simp only [planRequests, h1, h2]
      simp [countReq, isProductFor, productRequest]
    | some x =>
      simp only [planRequests, h1, h2]
      simp [countReq, isProductFor, productRequest]

theorem countReq_price_planRequests (oracle : StripeRequest → Option String)
    (hall : ∀ r, (oracle r).isSome = true) (p : StripePlan) (t b : String)
    (hb : b = "monthly" ∨ b = "annual") :
    countReq (isPriceFor t b) (planRequests oracle p) =
      if p.tier == t then 1 else 0 := by
  obtain ⟨pid, hpid⟩ := Option.isSome_iff_exists.mp (hall (productRequest p))
  obtain ⟨mid, hmid⟩ := Option.isSome_iff_exists.mp
    (hall (StripeRequest.price pid p.monthly "month" p.tier "monthly"))
  rcases hb with rfl | rfl <;>
  · simp only [planRequests, hpid, hmid]
    simp [countReq, isPriceFor, productRequest]

theorem insertAfterAnchor_eq {A : List (List Char)} {a : List Char}
    (B : List (List Char)) (hA : ∀ l ∈ A, containsTok anchorNeedle l = false)
    (ha : containsTok anchorNeedle a = true) :
    insertAfterAnchor (A ++ a :: B) = A ++ a :: importInsert :: B := by
  induction A with
  | nil => simp [insertAfterAnchor, ha]
  | cons l A' ih =>
    rw [List.cons_append, insertAfterAnchor,
      if_neg (by simp [hA l (List.mem_cons_self _ _)]), List.cons_append,
      ih (fun x hx => hA x (List.mem_cons_of_mem _ hx))]

theorem drop_append_of_le' {α : Type} (A B : List α) {m : Nat} (h : A.length ≤ m) :
    (A ++ B).drop m = B.drop (m - A.length) := by
  rw [List.drop_append_eq_append_drop, List.drop_eq_nil_of_le h, List.nil_append]

theorem drop_cons_of_pos {α : Type} (x : α) (B : List α) {m : Nat} (h : 1 ≤ m) :
    (x :: B).drop m = B.drop (m - 1) := by
  have hm : (m - 1) + 1 = m := by omega
  conv_lhs => rw [← hm]
  rw [List.drop_succ_cons]

/-! ## Claim C1: idempotence of the Template Patcher -/

/-- C1 counterexample: applying the Template Patcher twice to `c1CexInput`
does not equal applying it once, so the patcher is not idempotent on every
input text. -/
theorem c1_idempotence_counterexample :
    patchText (patchText c1CexInput) ≠ patchText c1CexInput := by decide

/-- C1 (amended): the Template Patcher is idempotent on every input for
which the first application leaves every matched question block containing
the marker id `gridConnection` (which holds for well-formed template files
but not for every string). -/
theorem c1_idempotence_amended (s : List Char)
    (h : allMarkedGo cqStart cqEnd gridMarker (patchText s).length
      (patchText s) = true) :
    patchText (patchText s) = patchText s := by
  have := reSubGo_eq_self_of_allMarked cqStart cqEnd gridMarker
    add_questions_if_missing (fun g1 g2 hm => add_questions_skip g2 hm)
    (patchText s).length (patchText s) h
  simpa [patchText, reSub] using this

/-- C1 witness: on `markedInput` the first application leaves every matched
block marked, and the second application changes nothing. -/
theorem c1_idempotence_witness :
    allMarkedGo cqStart cqEnd gridMarker (patchText markedInput).length
      (patchText markedInput) = true ∧
    patchText (patchText markedInput) = patchText markedInput :=
  ⟨by decide, c1_idempotence_amended markedInput (by decide)⟩

/-! ## Claim C2: uniqueness of question ids -/

/-- C2 counterexample: the block of `c2CexInput` contains the id
`facilitySize` once and lacks the marker; after patching, the id
`facilitySize` occurs twice, so question ids are no longer pairwise
distinct. -/
theorem c2_uniqueness_counterexample :
    countSub facilitySizeNeedle c2CexInput = 1 ∧
    countSub facilitySizeNeedle (patchText c2CexInput) = 2 := by
  constructor <;> decide

/-- C2-amended theorem. -/
theorem c2_uniqueness_amended (g1 q : List Char)
    (hm : containsTok gridMarker g1 = false) (hq : q ∈ universalIdNeedles) :
    countSub q (add_questions_if_missing g1 cqEnd) = countSub q g1 + 1 := by
  simp only [universalIdNeedles, List.mem_cons, List.not_mem_nil, or_false] at hq
  rcases hq with rfl | rfl | rfl | rfl
  all_goals
    exact add_questions_countSub (by decide) (by decide) (by decide) (by decide)
      (by decide) hm

/-- C2 witness: for a block containing none of the four injected ids, each
injected id is appended exactly once. -/
theorem c2_uniqueness_witness :
    containsTok gridMarker unmarkedBlock = false ∧
    facilitySizeNeedle ∈ universalIdNeedles ∧
    countSub facilitySizeNeedle (add_questions_if_missing unmarkedBlock cqEnd) =
      countSub facilitySizeNeedle unmarkedBlock + 1 :=
  ⟨by decide, by decide,
    c2_uniqueness_amended unmarkedBlock facilitySizeNeedle (by decide) (by decide)⟩

/-! ## Claim C3: skip behaviour -/

/-- C3: whenever the matched question block already contains the marker
`gridConnection`, the replacement function returns the whole match
`group1 ++ group2` unchanged, so the block region is byte-identical. -/
theorem c3_skip_byte_identical (g1 g2 : List Char)
    (h : containsTok gridMarker g1 = true) :
    add_questions_if_missing g1 g2 = g1 ++ g2 :=
  add_questions_skip g2 h

/-- C3 witness at a concrete marked block. -/
theorem c3_skip_witness :
    containsTok gridMarker markedBlock = true ∧
    add_questions_if_missing markedBlock cqEnd = markedBlock ++ cqEnd :=
  ⟨by decide, c3_skip_byte_identical markedBlock cqEnd (by decide)⟩

/-! ## Claim C4: the otherwise branch -/

/-- C4: on a block without the marker, the output is the right-stripped
block, a trailing comma added exactly when not already present, the four
universal questions (whose ids occur in the fixed order facilitySize,
operatingHours, peakLoad, gridConnection), and the original closing
delimiter. -/
theorem c4_append_structure (g1 g2 : List Char)
    (hm : containsTok gridMarker g1 = false) :
    add_questions_if_missing g1 g2 =
      ensureTrailingComma (rstrip g1) ++ '\n' :: (universalQuestions ++ '\n' :: g2) ∧
    ((rstrip g1).getLast? = some ',' ∧ ensureTrailingComma (rstrip g1) = rstrip g1 ∨
      (rstrip g1).getLast? ≠ some ',' ∧
        ensureTrailingComma (rstrip g1) = rstrip g1 ++ [',']) ∧
    seqOccurs universalQuestions universalIdNeedles = true := by
  refine ⟨by rw [add_questions_if_missing, if_neg (by simp [hm])], ?_, by decide⟩
  by_cases hcomma : (rstrip g1).getLast? = some ','
  · exact Or.inl ⟨hcomma, by rw [ensureTrailingComma, if_pos hcomma]⟩
  · exact Or.inr ⟨hcomma, by rw [ensureTrailingComma, if_neg hcomma]⟩

/-- C4 witness at a concrete unmarked block. -/
theorem c4_append_witness :
    containsTok gridMarker unmarkedBlock = false ∧
    add_questions_if_missing unmarkedBlock cqEnd =
      ensureTrailingComma (rstrip unmarkedBlock) ++
        '\n' :: (universalQuestions ++ '\n' :: cqEnd) ∧
    seqOccurs universalQuestions universalIdNeedles = true :=
  ⟨by decide, (c4_append_structure unmarkedBlock cqEnd (by decide)).1,
    (c4_append_structure unmarkedBlock cqEnd (by decide)).2.2⟩

/-! ## Claim C5: fail-open on structural mismatch -/

/-- C5: the transformation is a total function, and on any input where the
question-block boundary pattern has no match it returns the text unchanged:
malformed structure is silently skipped and no error is signalled. -/
theorem c5_fail_open (s : List Char)
    (h : hasMatchGo cqStart cqEnd s.length s = false) :
    patchText s = s := by
  have := reSubGo_eq_self_of_noMatch cqStart cqEnd add_questions_if_missing
    s.length s h
  simpa [patchText, reSub] using this

/-- C5 witness: a malformed input (no closing delimiter) passes through
unchanged. -/
theorem c5_fail_open_witness :
    hasMatchGo cqStart cqEnd c5Malformed.length c5Malformed = false ∧
    patchText c5Malformed = c5Malformed :=
  ⟨by decide, c5_fail_open c5Malformed (by decide)⟩

/-! ## Claim C6: the worked example -/

/-- C6: patching the worked example yields a question list of 5 entries:
the original `industrySpecific` entry unchanged and first, followed by
facilitySize, operatingHours, peakLoad, gridConnection in that order. -/
theorem c6_worked_example :
    countSub idFieldTok (patchText c6Input) = 5 ∧
    seqOccurs (patchText c6Input)
      ("id: \x27industrySpecific\x27".toList :: universalIdNeedles) = true ∧
    c6OriginalEntry.isPrefixOf (patchText c6Input) = true := by
  refine ⟨by decide, by decide, by decide⟩

/-! ## Claim C7: billing provisioning -/

/-- C7: for every oracle (so in particular whatever responses the API
returns, including failed Product creations), the script issues exactly one
Product creation per tier — a failure for one tier never suppresses the
attempts for the remaining tiers; and when every call succeeds it issues
exactly one monthly and one annual Price creation per tier. -/
theorem c7_billing_provisioning (oracle : StripeRequest → Option String) :
    (∀ t ∈ ["starter", "pro", "advanced"],
      countReq (isProductFor t) (scriptRequests oracle) = 1) ∧
    ((∀ r, (oracle r).isSome = true) →
      ∀ t ∈ ["starter", "pro", "advanced"],
        countReq (isPriceFor t "monthly") (scriptRequests oracle) = 1 ∧
        countReq (isPriceFor t "annual") (scriptRequests oracle) = 1) := by
  constructor
  · intro t ht
    simp only [List.mem_cons, List.not_mem_nil, or_false] at ht
    rcases ht with rfl | rfl | rfl <;>
    · rw [scriptRequests]
      simp only [plans, List.map_cons, List.map_nil, List.flatten_cons,
        List.flatten_nil, List.append_nil]
      rw [countReq_append, countReq_append, countReq_product_planRequests,
        countReq_product_planRequests, countReq_product_planRequests]
      decide
  · intro hall t ht
    simp only [List.mem_cons, List.not_mem_nil, or_false] at ht
    rcases ht with rfl | rfl | rfl <;>
    · constructor <;>
      · rw [scriptRequests]
        simp only [plans, List.map_cons, List.map_nil, List.flatten_cons,
          List.flatten_nil, List.append_nil]
        rw [countReq_append, countReq_append,
          countReq_price_planRequests oracle hall _ _ _ (by simp),
          countReq_price_planRequests oracle hall _ _ _ (by simp),
          countReq_price_planRequests oracle hall _ _ _ (by simp)]
        decide

/-- C7 witness: under an all-succeeding oracle, tier `pro` gets exactly one
Product request, one monthly Price request and one annual Price request. -/
theorem c7_billing_witness :
    countReq (isProductFor "pro") (scriptRequests (fun _ => some "obj")) = 1 ∧
    countReq (isPriceFor "pro" "monthly") (scriptRequests (fun _ => some "obj")) = 1 ∧
    countReq (isPriceFor "pro" "annual") (scriptRequests (fun _ => some "obj")) = 1 :=
  ⟨(c7_billing_provisioning (fun _ => some "obj")).1 "pro" (by simp),
    ((c7_billing_provisioning (fun _ => some "obj")).2 (fun r => rfl) "pro" (by simp)).1,
    ((c7_billing_provisioning (fun _ => some "obj")).2 (fun r => rfl) "pro" (by simp)).2⟩

/-! ## Claim C8: shift arithmetic of the Structural Line Editor -/

/-- C8 counterexample: on a 3800-line file with the anchor import at line
30, the first deletion does not remove lines 2523-2702 of the original file
(0-indexed 2522..2701), nor does the second deletion remove original lines
3374-3697 (0-indexed 3373..3696): the one-line shift introduced by the
step-1 import insertion is unaccounted for. -/
theorem c8_deletions_counterexample :
    deletion1Removed op1bTestFile ≠ (op1bTestFile.drop 2522).take 180 ∧
    deletion2Removed op1bTestFile ≠ (op1bTestFile.drop 3373).take 324 := by
  constructor <;> decide

/-- C8 (amended): when the anchor line is found before the first deleted
range (and the file is long enough to contain both ranges), the first
deletion removes exactly the 180 lines at 0-indexed positions 2521..2700 of
the original file (lines numbered 2522-2701), and the second deletion
removes exactly the 324 lines at 0-indexed positions 3372..3695 (lines
numbered 3373-3696): one lower than claimed, because the claimed indices
account for the 180-line shift of the first deletion but not for the
one-line shift of the step-1 import insertion. -/
theorem c8_deletions_amended (A : List (List Char)) (a : List Char)
    (B : List (List Char)) (hA : ∀ l ∈ A, containsTok anchorNeedle l = false)
    (ha : containsTok anchorNeedle a = true) (hlen : A.length ≤ 2520)
    (hFlen : 3517 ≤ (A ++ a :: B).length) :
    deletion1Removed (A ++ a :: B) = ((A ++ a :: B).drop 2521).take 180 ∧
    deletion2Removed (A ++ a :: B) = ((A ++ a :: B).drop 3372).take 324 := by
  have hins := insertAfterAnchor_eq B hA ha
  have hBlen : 3517 ≤ A.length + (B.length + 1) := by
    simpa [List.length_append] using hFlen
  have hL1len : (A ++ a :: importInsert :: B).length = A.length + (B.length + 2) := by
    simp [List.length_append]
  have hd1 : (insertAfterAnchor (A ++ a :: B)).drop 2522 =
      B.drop (2522 - A.length - 1 - 1) := by
    rw [hins, drop_append_of_le' A _ (by omega),
      drop_cons_of_pos _ _ (by omega), drop_cons_of_pos _ _ (by omega)]
  have hd0 : ∀ m, A.length + 1 ≤ m →
      (A ++ a :: B).drop m = B.drop (m - A.length - 1) := by
    intro m hm
    rw [drop_append_of_le' A _ (by omega), drop_cons_of_pos _ _ (by omega)]
  constructor
  · rw [deletion1Removed, hd1, hd0 2521 (by omega),
      show 2522 - A.length - 1 - 1 = 2521 - A.length - 1 from by omega]
  · rw [deletion2Removed, afterStep2, hins]
    have htlen : ((A ++ a :: importInsert :: B).take 2522).length = 2522 := by
      rw [List.length_take, hL1len]
      omega
    rw [drop_append_of_le' _ _ (by rw [htlen]; omega), htlen, List.drop_drop]
    rw [show (2702 + (3193 - 2522)) = 3373 from by omega]
    rw [drop_append_of_le' A _ (by omega), drop_cons_of_pos _ _ (by omega),
      drop_cons_of_pos _ _ (by omega), hd0 3372 (by omega),
      show 3373 - A.length - 1 - 1 = 3372 - A.length - 1 from by omega]

/-- C8 witness: the amended statement instantiated at the synthetic
3800-line file with its anchor import at index 29. -/
theorem c8_deletions_witness :
    (∀ l ∈ op1bHead, containsTok anchorNeedle l = false) ∧
    containsTok anchorNeedle anchorLine = true ∧
    op1bHead.length ≤ 2520 ∧
    3517 ≤ (op1bHead ++ anchorLine :: op1bTail).length ∧
    deletion1Removed (op1bHead ++ anchorLine :: op1bTail) =
      ((op1bHead ++ anchorLine :: op1bTail).drop 2521).take 180 ∧
    deletion2Removed (op1bHead ++ anchorLine :: op1bTail) =
      ((op1bHead ++ anchorLine :: op1bTail).drop 3372).take 324 :=
  ⟨by decide, by decide, by decide, by simp [op1bHead, op1bTail],
    (c8_deletions_amended op1bHead anchorLine op1bTail (by decide) (by decide)
      (by decide) (by simp [op1bHead, op1bTail])).1,
    (c8_deletions_amended op1bHead anchorLine op1bTail (by decide) (by decide)
      (by decide) (by simp [op1bHead, op1bTail])).2⟩

/-! ## Claim C9: the marker test is a plain substring check -/

/-- C9: the marker test is a plain substring check over the matched block,
so any block in which the character sequence `gridConnection` occurs
anywhere — in particular inside a string value rather than as an id — is
skipped unchanged. -/
theorem c9_substring_marker (g1 g2 pre post : List Char)
    (h : g1 = pre ++ (gridMarker ++ post)) :
    add_questions_if_missing g1 g2 = g1 ++ g2 := by
  subst h
  exact add_questions_skip g2 (containsTok_of_parts pre gridMarker post)

/-- C9 witness: a block whose only occurrence of `gridConnection` is inside
a helpText string (it contains no `id: 'gridConnection'` field) is still
skipped. -/
theorem c9_substring_witness :
    containsTok gridConnectionNeedle c9Block = false ∧
    add_questions_if_missing c9Block cqEnd = c9Block ++ cqEnd :=
  ⟨by decide, c9_substring_marker c9Block cqEnd c9Pre c9Post rfl⟩

/-! ## Claim C10: the splice variant is not idempotent -/

/-- C10: `add_grid_capacity.py` is not idempotent: one application of the
splice to `gcBase` inserts the gridCapacity fields once, and a second
application matches the same gridConnection block again (its end token
`required: true\n      }` is still in place) and inserts a second copy, so
applying twice differs from applying once. -/
theorem c10_splice_not_idempotent :
    countSub gridCapacityNeedle (gcPatch gcBase) = 1 ∧
    countSub gridCapacityNeedle (gcPatch (gcPatch gcBase)) = 2 ∧
    gcPatch (gcPatch gcBase) ≠ gcPatch gcBase := by
  refine ⟨by decide, by decide, by decide⟩

end Merlin
